import Mathlib

/-!
Shallow embedding of ddscubemap.cpp, a utility that assembles six DDS cube
side images into a single DDS cubemap file, together with proofs about its
header model and its assembly loop.

Files are modelled as lists of byte values; multi-byte fields are read and
written little-endian, matching the raw struct reinterpretation the source
performs on its x86 targets.
-/

set_option maxRecDepth 100000

namespace DdsCubemap

/-- Contents of a file: the list of its bytes. -/
abbrev Buffer := List Nat

/-- DDS Pixel Format structure; every field is one 32-bit word. -/
structure DDSPixelFormat where
  Size : Nat
  Flags : Nat
  FourCC : Nat
  RGBBitCount : Nat
  RBitMask : Nat
  GBitMask : Nat
  BBitMask : Nat
  ABitMask : Nat
deriving DecidableEq

/-- DDS File header structure; Reserved1 holds the eleven words of the reserved block. -/
structure DDSFileHeader where
  Size : Nat
  Flags : Nat
  Height : Nat
  Width : Nat
  PitchOrLinearSize : Nat
  Depth : Nat
  MipMapCount : Nat
  Reserved1 : List Nat
  PixelFormatDef : DDSPixelFormat
  Caps : Nat
  Caps2 : Nat
  Caps3 : Nat
  Caps4 : Nat
  Reserved2 : Nat
deriving DecidableEq

/-- Caps2 flag indicating complete (6 faces) cubemap. -/
def DDSCompleteCubemap : Nat := 0xFE00

/-- Return true if the cubemap flag is set: (Caps2 & DDSCompleteCubemap) != 0. -/
def DDSFileHeader.IscompleteCubemap (h : DDSFileHeader) : Bool :=
  (h.Caps2 &&& DDSCompleteCubemap) != 0

/-- Mutation applied to the face 0 header at line 157: Caps2 |= DDSCompleteCubemap. -/
def setCompleteCubemapFlag (h : DDSFileHeader) : DDSFileHeader :=
  { h with Caps2 := h.Caps2 ||| DDSCompleteCubemap }

/-- Checked indexing into a buffer: none signals an access past the end. -/
def byteGet : Buffer → Nat → Option Nat
  | [], _ => none
  | x :: _, 0 => some x
  | _ :: t, n + 1 => byteGet t n

/-- Byte of the buffer at index i; reads past the end give 0 (only used in bounds). -/
def byteAt (buf : Buffer) (i : Nat) : Nat := (byteGet buf i).getD 0

/-- Little-endian 32-bit value at byte offset i of the buffer. -/
def le32 (buf : Buffer) (i : Nat) : Nat :=
  byteAt buf i + 256 * byteAt buf (i + 1) + 65536 * byteAt buf (i + 2) +
    16777216 * byteAt buf (i + 3)

/-- Little-endian byte serialisation of one 32-bit word. -/
def le32bytes (x : Nat) : Buffer :=
  [x % 256, x / 256 % 256, x / 65536 % 256, x / 16777216 % 256]

/-- ASCII bytes of the magic tag written at line 165. -/
def magicBytes : Buffer := [68, 68, 83, 32]

/-- Comparison memcmp(&buffer[0], "DDS ", 4) == 0 from line 118, with checked
indexing: none models an access past the end of the buffer, which the source
performs whenever the file is shorter than 4 bytes (the size test on line 119
is only evaluated afterwards). -/
def magicCheck (buf : Buffer) : Option Bool :=
  match byteGet buf 0, byteGet buf 1, byteGet buf 2, byteGet buf 3 with
  | some a, some b, some c, some d => some (a == 68 && b == 68 && c == 83 && d == 32)
  | _, _, _, _ => none

/-- Reinterpretation of bytes 76..107 as the embedded DDSPixelFormat (part of
the raw struct copy at line 125). -/
def readPixelFormat (buf : Buffer) : DDSPixelFormat :=
  { Size := le32 buf 76, Flags := le32 buf 80, FourCC := le32 buf 84,
    RGBBitCount := le32 buf 88, RBitMask := le32 buf 92, GBitMask := le32 buf 96,
    BBitMask := le32 buf 100, ABitMask := le32 buf 104 }

/-- Reinterpretation of bytes 4..127 as the DDSFileHeader (the raw struct copy
from &buffer[4] at line 125). -/
def readHeader (buf : Buffer) : DDSFileHeader :=
  { Size := le32 buf 4, Flags := le32 buf 8, Height := le32 buf 12, Width := le32 buf 16,
    PitchOrLinearSize := le32 buf 20, Depth := le32 buf 24, MipMapCount := le32 buf 28,
    Reserved1 := [le32 buf 32, le32 buf 36, le32 buf 40, le32 buf 44, le32 buf 48,
      le32 buf 52, le32 buf 56, le32 buf 60, le32 buf 64, le32 buf 68, le32 buf 72],
    PixelFormatDef := readPixelFormat buf,
    Caps := le32 buf 108, Caps2 := le32 buf 112, Caps3 := le32 buf 116,
    Caps4 := le32 buf 120, Reserved2 := le32 buf 124 }

/-- Byte image of a DDSPixelFormat as written back to disk by line 166. -/
def encodePixelFormat (pf : DDSPixelFormat) : Buffer :=
  le32bytes pf.Size ++ le32bytes pf.Flags ++ le32bytes pf.FourCC ++
    le32bytes pf.RGBBitCount ++ le32bytes pf.RBitMask ++ le32bytes pf.GBitMask ++
    le32bytes pf.BBitMask ++ le32bytes pf.ABitMask

/-- Byte image of a DDSFileHeader as written back to disk by line 166 (124 bytes). -/
def encodeHeader (h : DDSFileHeader) : Buffer :=
  le32bytes h.Size ++ le32bytes h.Flags ++ le32bytes h.Height ++ le32bytes h.Width ++
    le32bytes h.PitchOrLinearSize ++ le32bytes h.Depth ++ le32bytes h.MipMapCount ++
    (h.Reserved1.map le32bytes).flatten ++ encodePixelFormat h.PixelFormatDef ++
    le32bytes h.Caps ++ le32bytes h.Caps2 ++ le32bytes h.Caps3 ++ le32bytes h.Caps4 ++
    le32bytes h.Reserved2

/-- Outcome of the per-face magic/size test at lines 118-125. -/
inductive DecodeResult where
  | oob : DecodeResult
  | notDds : DecodeResult
  | ok : DDSFileHeader → DecodeResult
deriving DecidableEq

/-- Lines 118-125: the memcmp runs first; only when it is in bounds is the size
comparison meaningful, and a passing buffer is reinterpreted as a header. -/
def decodeFace (buf : Buffer) : DecodeResult :=
  match magicCheck buf with
  | none => DecodeResult.oob
  | some m =>
    if !m || decide (buf.length < 128) then DecodeResult.notDds
    else DecodeResult.ok (readHeader buf)

/-- Lines 127-134: pass iff Size == 124, Width != 0, Height != 0 and the pixel
format Size == 32. -/
def validateHeader (h : DDSFileHeader) : Bool :=
  h.Size == 124 && h.Width != 0 && h.Height != 0 && h.PixelFormatDef.Size == 32

/-- Loop of line 142: starting from d, halve while greater than 1, counting the
iterations on top of acc. The first argument bounds the number of iterations so
that the recursion is structural; since the loop halves d every time, d itself
is always a sufficient bound. -/
def mipLoop : Nat → Nat → Nat → Nat
  | 0, _, acc => acc
  | fuel + 1, d, acc => if 1 < d then mipLoop fuel (d / 2) (acc + 1) else acc

/-- Lines 140-142: number of mip levels of a complete chain for the dimensions. -/
def expectedMipCount (width height : Nat) : Nat :=
  mipLoop (if height > width then height else width)
    (if height > width then height else width) 1

/-- Warning of lines 143-146, recorded as the side index; empty when the
declared count matches the expected one. -/
def mipWarn (side : Nat) (h : DDSFileHeader) : List Nat :=
  if expectedMipCount h.Width h.Height != h.MipMapCount then [side] else []

/-- Fatal error exits of the per-face loop, tagged with the face index. -/
inductive RunError where
  | NotDdsError : Nat → RunError
  | InvalidHeaderError : Nat → RunError
  | NotCubemapCompatibleError : Nat → RunError
  | InconsistentFacesError : Nat → RunError
  | OobAccess : Nat → RunError
deriving DecidableEq

/-- Result of a run: final status (none on success), bytes of the output file
(none when the output was never opened, which happens exactly when face 0
fails), and the sides for which the mip warning was printed. -/
structure RunOutcome where
  status : Option RunError
  output : Option Buffer
  warnings : List Nat
deriving DecidableEq

/-- Loop of lines 97-181 for sides 1..5: first is the face 0 header, out the
bytes written so far, warns the mip warnings printed so far. -/
def processTail (first : DDSFileHeader) : List Buffer → Nat → Buffer → List Nat → RunOutcome
  | [], _, out, warns => { status := none, output := some out, warnings := warns }
  | buf :: rest, side, out, warns =>
    match decodeFace buf with
    | DecodeResult.oob =>
        { status := some (RunError.OobAccess side), output := some out, warnings := warns }
    | DecodeResult.notDds =>
        { status := some (RunError.NotDdsError side), output := some out, warnings := warns }
    | DecodeResult.ok h =>
        if !validateHeader h then
          { status := some (RunError.InvalidHeaderError side), output := some out,
            warnings := warns }
        else
          let warns2 := warns ++ mipWarn side h
          if h.Width != h.Height then
            { status := some (RunError.NotCubemapCompatibleError side), output := some out,
              warnings := warns2 }
          else if h.Width != first.Width || h.Height != first.Height ||
              h.PixelFormatDef.FourCC != first.PixelFormatDef.FourCC then
            { status := some (RunError.InconsistentFacesError side), output := some out,
              warnings := warns2 }
          else
            processTail first rest (side + 1) (out ++ buf.drop 128) warns2

/-- Lines 93-187, given the six input files already read into buffers: face 0
is decoded, validated and checked square, then the output is opened and the
magic tag, the face 0 header with the cubemap flag set, and face 0's payload
are written; the remaining sides are handled by processTail. -/
def run : List Buffer → RunOutcome
  | [] => { status := none, output := none, warnings := [] }
  | buf :: rest =>
    match decodeFace buf with
    | DecodeResult.oob =>
        { status := some (RunError.OobAccess 0), output := none, warnings := [] }
    | DecodeResult.notDds =>
        { status := some (RunError.NotDdsError 0), output := none, warnings := [] }
    | DecodeResult.ok h =>
        if !validateHeader h then
          { status := some (RunError.InvalidHeaderError 0), output := none, warnings := [] }
        else
          let warns := mipWarn 0 h
          if h.Width != h.Height then
            { status := some (RunError.NotCubemapCompatibleError 0), output := none,
              warnings := warns }
          else
            processTail h rest 1
              (magicBytes ++ encodeHeader (setCompleteCubemapFlag h) ++ buf.drop 128)
              warns

/-- Hypothesis bundle for one input file: magic tag present, at least 128
bytes, header valid and square. -/
def goodFace (buf : Buffer) : Bool :=
  decide (magicCheck buf = some true) && decide (128 ≤ buf.length) &&
    validateHeader (readHeader buf) &&
    ((readHeader buf).Width == (readHeader buf).Height)

/-- Agreement with the face 0 header on the three cross-checked fields. -/
def consistentWith (first h : DDSFileHeader) : Bool :=
  h.Width == first.Width && h.Height == first.Height &&
    h.PixelFormatDef.FourCC == first.PixelFormatDef.FourCC

/-- Concrete DXT1 pixel format used by the concrete test faces. -/
def samplePixelFormat : DDSPixelFormat :=
  { Size := 32, Flags := 4, FourCC := 827611204, RGBBitCount := 0,
    RBitMask := 0, GBitMask := 0, BBitMask := 0, ABitMask := 0 }

/-- Concrete valid square 256x256 header with a full mip chain. -/
def sampleHeader : DDSFileHeader :=
  { Size := 124, Flags := 659463, Height := 256, Width := 256, PitchOrLinearSize := 32768,
    Depth := 0, MipMapCount := 9, Reserved1 := [0, 0, 0, 0, 0, 0, 0, 0, 0, 0, 0],
    PixelFormatDef := samplePixelFormat, Caps := 4096, Caps2 := 0, Caps3 := 0,
    Caps4 := 0, Reserved2 := 0 }

/-- Assemble a whole file image from a header and a payload. -/
def mkFace (h : DDSFileHeader) (payload : Buffer) : Buffer :=
  magicBytes ++ encodeHeader h ++ payload

/-- Valid 256x256 face. -/
def sampleFace : Buffer := mkFace sampleHeader [9, 8, 7, 6]

/-- Valid 256x256 face declaring only 5 mip levels. -/
def mip5Face : Buffer := mkFace { sampleHeader with MipMapCount := 5 } [9, 8, 7, 6]

/-- Face whose header declares Size = 123 instead of 124. -/
def badSizeFace : Buffer := mkFace { sampleHeader with Size := 123 } [9, 8, 7, 6]

/-- Face differing from sampleFace only in Width (hence no longer square). -/
def widthOnlyFace : Buffer := mkFace { sampleHeader with Width := 128 } [9, 8, 7, 6]

/-- Valid square 128x128 face (differs from sampleFace in Width and Height). -/
def smallFace : Buffer :=
  mkFace { sampleHeader with Width := 128, Height := 128, MipMapCount := 8 } [9, 8, 7, 6]

/-- Valid 256x256 face with a different pixel format tag. -/
def fourccFace : Buffer :=
  mkFace { sampleHeader with
    PixelFormatDef := { samplePixelFormat with FourCC := 894720068 } } [9, 8, 7, 6]

/-- Unfolding of magicCheck on a buffer with at least four bytes. -/
theorem magicCheck_cons (a b c d : Nat) (t : Buffer) :
    magicCheck (a :: b :: c :: d :: t) =
      some (a == 68 && b == 68 && c == 83 && d == 32) := rfl

/-- Every buffer with at least four bytes starts with four explicit bytes. -/
theorem exists_four_cons : ∀ (buf : Buffer), 4 ≤ buf.length →
    ∃ a b c d t, buf = a :: b :: c :: d :: t
  | a :: b :: c :: d :: t, _ => ⟨a, b, c, d, t, rfl⟩
  | [], h => absurd h (by simp only [List.length_nil]; omega)
  | [_], h => absurd h (by simp only [List.length_cons, List.length_nil]; omega)
  | [_, _], h => absurd h (by simp only [List.length_cons, List.length_nil]; omega)
  | [_, _, _], h => absurd h (by simp only [List.length_cons, List.length_nil]; omega)

/-- On a buffer shorter than 4 bytes the magic comparison goes out of bounds. -/
theorem magicCheck_of_short : ∀ (buf : Buffer), buf.length < 4 → magicCheck buf = none
  | [], _ => rfl
  | [_], _ => rfl
  | [_, _], _ => rfl
  | [_, _, _], _ => rfl
  | _ :: _ :: _ :: _ :: t, h => absurd h (by simp only [List.length_cons]; omega)

/-- On a buffer with at least 4 bytes every access of the magic comparison is in bounds. -/
theorem magicCheck_isSome (buf : Buffer) (h : 4 ≤ buf.length) :
    (magicCheck buf).isSome = true := by
  obtain ⟨a, b, c, d, t, rfl⟩ := exists_four_cons buf h
  rfl

/-- Decoding succeeds on a buffer with the magic tag and at least 128 bytes. -/
theorem decodeFace_eq_ok (buf : Buffer) (hm : magicCheck buf = some true)
    (hl : 128 ≤ buf.length) : decodeFace buf = DecodeResult.ok (readHeader buf) := by
  unfold decodeFace
  rw [hm]
  have hx : ¬ buf.length < 128 := by omega
  simp [hx]

/-- Decoding a buffer shorter than 4 bytes reaches the out-of-bounds branch. -/
theorem decodeFace_oob (buf : Buffer) (h : buf.length < 4) :
    decodeFace buf = DecodeResult.oob := by
  unfold decodeFace
  rw [magicCheck_of_short buf h]

/-- Decoding fails as a non-DDS file when the buffer has at least 4 bytes but
the magic tag is wrong or the buffer is shorter than 128 bytes. -/
theorem decodeFace_eq_notDds (buf : Buffer) (h4 : 4 ≤ buf.length)
    (hbad : magicCheck buf ≠ some true ∨ buf.length < 128) :
    decodeFace buf = DecodeResult.notDds := by
  obtain ⟨a, b, c, d, t, rfl⟩ := exists_four_cons buf h4
  unfold decodeFace
  rw [magicCheck_cons]
  rcases hbad with hm | hl
  · cases hbb : (a == 68 && b == 68 && c == 83 && d == 32) with
    | false => simp [hbb]
    | true => exact absurd ((magicCheck_cons a b c d t).trans (by rw [hbb])) hm
  · have hd : decide ((a :: b :: c :: d :: t).length < 128) = true := decide_eq_true hl
    rw [hd]
    simp [Bool.or_true]

/-- Unpacking of the goodFace hypothesis bundle. -/
theorem goodFace_iff (buf : Buffer) :
    goodFace buf = true ↔
      magicCheck buf = some true ∧ 128 ≤ buf.length ∧
      validateHeader (readHeader buf) = true ∧
      (readHeader buf).Width = (readHeader buf).Height := by
  simp [goodFace, and_assoc]

/-- Unpacking of the consistentWith hypothesis bundle. -/
theorem consistentWith_iff (first h : DDSFileHeader) :
    consistentWith first h = true ↔
      h.Width = first.Width ∧ h.Height = first.Height ∧
      h.PixelFormatDef.FourCC = first.PixelFormatDef.FourCC := by
  simp [consistentWith, and_assoc]

/-- A side past face 0 that decodes, validates, is square and agrees with the
face 0 header has its payload appended and processing continues. -/
theorem processTail_cons_pass (first : DDSFileHeader) (buf : Buffer) (rest : List Buffer)
    (side : Nat) (out : Buffer) (warns : List Nat) (h : DDSFileHeader)
    (hok : decodeFace buf = DecodeResult.ok h)
    (hv : validateHeader h = true) (hsq : h.Width = h.Height)
    (hw : h.Width = first.Width) (hh : h.Height = first.Height)
    (hf : h.PixelFormatDef.FourCC = first.PixelFormatDef.FourCC) :
    processTail first (buf :: rest) side out warns =
      processTail first rest (side + 1) (out ++ buf.drop 128) (warns ++ mipWarn side h) := by
  have e1 : (h.Width != h.Height) = false := by simp [hsq]
  have e2 : (h.Width != first.Width || h.Height != first.Height ||
      h.PixelFormatDef.FourCC != first.PixelFormatDef.FourCC) = false := by
    simp [hw, hh, hf]
  simp only [processTail]
  rw [hok]
  simp [hv, e1, e2]

/-- Face 0 passing all checks opens the output and writes the magic tag, the
flagged header and its payload before the loop continues. -/
theorem run_cons_pass (buf : Buffer) (rest : List Buffer) (h : DDSFileHeader)
    (hok : decodeFace buf = DecodeResult.ok h)
    (hv : validateHeader h = true) (hsq : h.Width = h.Height) :
    run (buf :: rest) =
      processTail h rest 1
        (magicBytes ++ encodeHeader (setCompleteCubemapFlag h) ++ buf.drop 128)
        (mipWarn 0 h) := by
  have e1 : (h.Width != h.Height) = false := by simp [hsq]
  simp only [run]
  rw [hok]
  simp [hv, e1]

/-- A side past face 0 with an invalid header stops the run, leaving output and
warnings untouched. -/
theorem processTail_cons_invalid (first : DDSFileHeader) (buf : Buffer) (rest : List Buffer)
    (side : Nat) (out : Buffer) (warns : List Nat) (h : DDSFileHeader)
    (hok : decodeFace buf = DecodeResult.ok h) (hv : validateHeader h = false) :
    processTail first (buf :: rest) side out warns =
      { status := some (RunError.InvalidHeaderError side), output := some out,
        warnings := warns } := by
  simp only [processTail]
  rw [hok]
  simp [hv]

/-- Face 0 with an invalid header stops the run before the output is opened. -/
theorem run_cons_invalid (buf : Buffer) (rest : List Buffer) (h : DDSFileHeader)
    (hok : decodeFace buf = DecodeResult.ok h) (hv : validateHeader h = false) :
    run (buf :: rest) =
      { status := some (RunError.InvalidHeaderError 0), output := none, warnings := [] } := by
  simp only [run]
  rw [hok]
  simp [hv]

/-- A side past face 0 that is not a DDS file stops the run, leaving output and
warnings untouched. -/
theorem processTail_cons_notDds (first : DDSFileHeader) (buf : Buffer) (rest : List Buffer)
    (side : Nat) (out : Buffer) (warns : List Nat)
    (hnd : decodeFace buf = DecodeResult.notDds) :
    processTail first (buf :: rest) side out warns =
      { status := some (RunError.NotDdsError side), output := some out,
        warnings := warns } := by
  simp only [processTail]
  rw [hnd]

/-- Face 0 not being a DDS file stops the run before the output is opened. -/
theorem run_cons_notDds (buf : Buffer) (rest : List Buffer)
    (hnd : decodeFace buf = DecodeResult.notDds) :
    run (buf :: rest) =
      { status := some (RunError.NotDdsError 0), output := none, warnings := [] } := by
  simp only [run]
  rw [hnd]

/-- A non-square side past face 0 stops the run after the mip warning but
before the consistency comparison (the result does not depend on first). -/
theorem processTail_cons_nonsquare (first : DDSFileHeader) (buf : Buffer) (rest : List Buffer)
    (side : Nat) (out : Buffer) (warns : List Nat) (h : DDSFileHeader)
    (hok : decodeFace buf = DecodeResult.ok h) (hv : validateHeader h = true)
    (hsq : h.Width ≠ h.Height) :
    processTail first (buf :: rest) side out warns =
      { status := some (RunError.NotCubemapCompatibleError side), output := some out,
        warnings := warns ++ mipWarn side h } := by
  have e1 : (h.Width != h.Height) = true := by simpa using hsq
  simp only [processTail]
  rw [hok]
  simp [hv, e1]

/-- A non-square face 0 stops the run after the mip warning and before the
output file is opened. -/
theorem run_cons_nonsquare (buf : Buffer) (rest : List Buffer) (h : DDSFileHeader)
    (hok : decodeFace buf = DecodeResult.ok h) (hv : validateHeader h = true)
    (hsq : h.Width ≠ h.Height) :
    run (buf :: rest) =
      { status := some (RunError.NotCubemapCompatibleError 0), output := none,
        warnings := mipWarn 0 h } := by
  have e1 : (h.Width != h.Height) = true := by simpa using hsq
  simp only [run]
  rw [hok]
  simp [hv, e1]

/-- A square side past face 0 that disagrees with the face 0 header on width,
height or pixel format tag stops the run with the inconsistency error. -/
theorem processTail_cons_inconsistent (first : DDSFileHeader) (buf : Buffer)
    (rest : List Buffer) (side : Nat) (out : Buffer) (warns : List Nat) (h : DDSFileHeader)
    (hok : decodeFace buf = DecodeResult.ok h) (hv : validateHeader h = true)
    (hsq : h.Width = h.Height)
    (hmis : h.Width ≠ first.Width ∨ h.Height ≠ first.Height ∨
      h.PixelFormatDef.FourCC ≠ first.PixelFormatDef.FourCC) :
    processTail first (buf :: rest) side out warns =
      { status := some (RunError.InconsistentFacesError side), output := some out,
        warnings := warns ++ mipWarn side h } := by
  have e1 : (h.Width != h.Height) = false := by simp [hsq]
  have e2 : (h.Width != first.Width || h.Height != first.Height ||
      h.PixelFormatDef.FourCC != first.PixelFormatDef.FourCC) = true := by
    rcases hmis with hx | hx | hx <;> simp [hx]
  simp only [processTail]
  rw [hok]
  simp [hv, e1, e2]

/-- Six good, mutually consistent faces produce a successful run whose output
is the magic tag, the flagged face 0 header, and the six payloads in order. -/
theorem run_all_good (b0 b1 b2 b3 b4 b5 : Buffer)
    (g0 : goodFace b0 = true) (g1 : goodFace b1 = true) (g2 : goodFace b2 = true)
    (g3 : goodFace b3 = true) (g4 : goodFace b4 = true) (g5 : goodFace b5 = true)
    (k1 : consistentWith (readHeader b0) (readHeader b1) = true)
    (k2 : consistentWith (readHeader b0) (readHeader b2) = true)
    (k3 : consistentWith (readHeader b0) (readHeader b3) = true)
    (k4 : consistentWith (readHeader b0) (readHeader b4) = true)
    (k5 : consistentWith (readHeader b0) (readHeader b5) = true) :
    run [b0, b1, b2, b3, b4, b5] =
      { status := none,
        output := some (magicBytes ++ encodeHeader (setCompleteCubemapFlag (readHeader b0)) ++
          (b0.drop 128 ++ b1.drop 128 ++ b2.drop 128 ++ b3.drop 128 ++ b4.drop 128 ++
            b5.drop 128)),
        warnings := mipWarn 0 (readHeader b0) ++ mipWarn 1 (readHeader b1) ++
          mipWarn 2 (readHeader b2) ++ mipWarn 3 (readHeader b3) ++
          mipWarn 4 (readHeader b4) ++ mipWarn 5 (readHeader b5) } := by
  obtain ⟨m0, l0, v0, s0⟩ := (goodFace_iff b0).mp g0
  obtain ⟨m1, l1, v1, s1⟩ := (goodFace_iff b1).mp g1
  obtain ⟨m2, l2, v2, s2⟩ := (goodFace_iff b2).mp g2
  obtain ⟨m3, l3, v3, s3⟩ := (goodFace_iff b3).mp g3
  obtain ⟨m4, l4, v4, s4⟩ := (goodFace_iff b4).mp g4
  obtain ⟨m5, l5, v5, s5⟩ := (goodFace_iff b5).mp g5
  obtain ⟨w1, e1, f1⟩ := (consistentWith_iff _ _).mp k1
  obtain ⟨w2, e2, f2⟩ := (consistentWith_iff _ _).mp k2
  obtain ⟨w3, e3, f3⟩ := (consistentWith_iff _ _).mp k3
  obtain ⟨w4, e4, f4⟩ := (consistentWith_iff _ _).mp k4
  obtain ⟨w5, e5, f5⟩ := (consistentWith_iff _ _).mp k5
  rw [run_cons_pass b0 _ (readHeader b0) (decodeFace_eq_ok b0 m0 l0) v0 s0,
    processTail_cons_pass _ b1 _ _ _ _ (readHeader b1) (decodeFace_eq_ok b1 m1 l1) v1 s1 w1 e1 f1,
    processTail_cons_pass _ b2 _ _ _ _ (readHeader b2) (decodeFace_eq_ok b2 m2 l2) v2 s2 w2 e2 f2,
    processTail_cons_pass _ b3 _ _ _ _ (readHeader b3) (decodeFace_eq_ok b3 m3 l3) v3 s3 w3 e3 f3,
    processTail_cons_pass _ b4 _ _ _ _ (readHeader b4) (decodeFace_eq_ok b4 m4 l4) v4 s4 w4 e4 f4,
    processTail_cons_pass _ b5 _ _ _ _ (readHeader b5) (decodeFace_eq_ok b5 m5 l5) v5 s5 w5 e5 f5]
  simp only [processTail]
  simp [List.append_assoc]

/-- Reading past a prefix lands in the suffix. -/
theorem byteAt_append_add (P l : Buffer) (k : Nat) :
    byteAt (P ++ l) (P.length + k) = byteAt l k := by
  induction P with
  | nil => simp [byteAt]
  | cons x P ih =>
      have hi : (x :: P).length + k = (P.length + k) + 1 := by
        simp only [List.length_cons]
        omega
      rw [List.cons_append, hi]
      show (byteGet (x :: (P ++ l)) ((P.length + k) + 1)).getD 0 = byteAt l k
      rw [show byteGet (x :: (P ++ l)) ((P.length + k) + 1) =
        byteGet (P ++ l) (P.length + k) from rfl]
      exact ih

/-- Reading a little-endian word back from a serialised word placed after a
prefix recovers the word. -/
theorem le32_append (P S : Buffer) (v : Nat) (hv : v < 4294967296) :
    le32 (P ++ (le32bytes v ++ S)) P.length = v := by
  have h0 := byteAt_append_add P (le32bytes v ++ S) 0
  have h1 := byteAt_append_add P (le32bytes v ++ S) 1
  have h2 := byteAt_append_add P (le32bytes v ++ S) 2
  have h3 := byteAt_append_add P (le32bytes v ++ S) 3
  rw [Nat.add_zero] at h0
  rw [le32, h0, h1, h2, h3]
  simp only [le32bytes, List.cons_append, byteAt, byteGet, Option.getD_some]
  omega

/-- A successfully indexed byte is an element of the buffer. -/
theorem byteGet_mem : ∀ (b : Buffer) (i : Nat) (x : Nat), byteGet b i = some x → x ∈ b
  | [], _, _, h => Option.noConfusion h
  | y :: t, 0, x, h => by
      have hyx : y = x := Option.some.inj h
      rw [← hyx]
      exact List.mem_cons_self y t
  | y :: t, n + 1, x, h => by
      rw [List.mem_cons]
      exact Or.inr (byteGet_mem t n x h)

/-- Bytes of a byte-valued buffer are below 256 wherever read. -/
theorem byteAt_lt_256 (b : Buffer) (hb : ∀ x ∈ b, x < 256) (i : Nat) : byteAt b i < 256 := by
  rw [byteAt]
  rcases hg : byteGet b i with _ | x
  · simp
  · simp only [Option.getD_some]
    exact hb x (byteGet_mem b i x hg)

/-- A little-endian 32-bit read of a byte-valued buffer fits in 32 bits. -/
theorem le32_lt (b : Buffer) (hb : ∀ x ∈ b, x < 256) (i : Nat) : le32 b i < 4294967296 := by
  have h0 := byteAt_lt_256 b hb i
  have h1 := byteAt_lt_256 b hb (i + 1)
  have h2 := byteAt_lt_256 b hb (i + 2)
  have h3 := byteAt_lt_256 b hb (i + 3)
  rw [le32]
  omega

/-- Bitwise or of two 32-bit values fits in 32 bits. -/
theorem lor_lt_32 (x y : Nat) (hx : x < 4294967296) (hy : y < 4294967296) :
    x ||| y < 4294967296 := by
  have h32 : (4294967296 : Nat) = 2 ^ 32 := by norm_num
  rw [h32] at hx hy ⊢
  apply Nat.lt_pow_two_of_testBit
  intro i hi
  rw [Nat.testBit_lor, Nat.testBit_lt_two_pow, Nat.testBit_lt_two_pow]
  · rfl
  · exact lt_of_lt_of_le hy (Nat.pow_le_pow_right (by norm_num) hi)
  · exact lt_of_lt_of_le hx (Nat.pow_le_pow_right (by norm_num) hi)

/-- Serialised words are 4 bytes long. -/
theorem le32bytes_length (v : Nat) : (le32bytes v).length = 4 := rfl

/-- Serialising a list of words gives 4 bytes per word. -/
theorem flatten_map_le32bytes_length (l : List Nat) :
    ((l.map le32bytes).flatten).length = 4 * l.length := by
  induction l with
  | nil => rfl
  | cons x l ih =>
      rw [List.map_cons, List.flatten_cons, List.length_append, ih, le32bytes_length,
        List.length_cons]
      omega

/-- Summed lengths of serialised words: 4 bytes per word. -/
theorem sum_map_length_le32bytes (l : List Nat) :
    (l.map (List.length ∘ le32bytes)).sum = 4 * l.length := by
  induction l with
  | nil => rfl
  | cons x l ih =>
      rw [List.map_cons, List.sum_cons, ih, List.length_cons]
      simp only [Function.comp_apply, le32bytes_length]
      omega

/-- A serialised header with the expected reserved block is 124 bytes. -/
theorem encodeHeader_length (h : DDSFileHeader) (hr : h.Reserved1.length = 11) :
    (encodeHeader h).length = 124 := by
  simp [encodeHeader, encodePixelFormat, flatten_map_le32bytes_length,
    sum_map_length_le32bytes, le32bytes, hr]

/-- Reading from a header read back from bytes gives an 11-entry reserved block. -/
theorem readHeader_reserved1_length (b : Buffer) : (readHeader b).Reserved1.length = 11 := rfl

/-- Setting the cubemap flag does not change the reserved block. -/
theorem setFlag_reserved1 (h : DDSFileHeader) :
    (setCompleteCubemapFlag h).Reserved1 = h.Reserved1 := rfl

/-- Decoding the header region of an encoded file recovers the Caps2 word. -/
theorem readHeader_mkFace_Caps2 (h : DDSFileHeader) (hr : h.Reserved1.length = 11)
    (hc : h.Caps2 < 4294967296) (payload : Buffer) :
    (readHeader (magicBytes ++ encodeHeader h ++ payload)).Caps2 = h.Caps2 := by
  have hsplit : magicBytes ++ encodeHeader h ++ payload =
      (magicBytes ++ (le32bytes h.Size ++ le32bytes h.Flags ++ le32bytes h.Height ++
        le32bytes h.Width ++ le32bytes h.PitchOrLinearSize ++ le32bytes h.Depth ++
        le32bytes h.MipMapCount ++ (h.Reserved1.map le32bytes).flatten ++
        encodePixelFormat h.PixelFormatDef ++ le32bytes h.Caps)) ++
      (le32bytes h.Caps2 ++ (le32bytes h.Caps3 ++ le32bytes h.Caps4 ++
        le32bytes h.Reserved2 ++ payload)) := by
    simp [encodeHeader, List.append_assoc]
  have hplen : (magicBytes ++ (le32bytes h.Size ++ le32bytes h.Flags ++ le32bytes h.Height ++
      le32bytes h.Width ++ le32bytes h.PitchOrLinearSize ++ le32bytes h.Depth ++
      le32bytes h.MipMapCount ++ (h.Reserved1.map le32bytes).flatten ++
      encodePixelFormat h.PixelFormatDef ++ le32bytes h.Caps)).length = 112 := by
    simp [magicBytes, le32bytes, encodePixelFormat, flatten_map_le32bytes_length,
      sum_map_length_le32bytes, hr]
  show le32 (magicBytes ++ encodeHeader h ++ payload) 112 = h.Caps2
  rw [hsplit, ← hplen]
  exact le32_append _ _ _ hc

/-- The bits of the completeness mask 0xFE00 are exactly bits 9 through 15. -/
theorem testBit_mask (i : Nat) : Nat.testBit 65024 i = true ↔ 9 ≤ i ∧ i ≤ 15 := by
  have hsmall : ∀ j, j < 16 → (Nat.testBit 65024 j = true ↔ 9 ≤ j ∧ j ≤ 15) := by decide
  rcases Nat.lt_or_ge i 16 with hlt | hge
  · exact hsmall i hlt
  · have hfalse : Nat.testBit 65024 i = false := by
      apply Nat.testBit_lt_two_pow
      have h16 : (65024 : Nat) < 2 ^ 16 := by norm_num
      exact lt_of_lt_of_le h16 (Nat.pow_le_pow_right (by norm_num) hge)
    rw [hfalse]
    constructor
    · intro hx
      exact absurd hx Bool.false_ne_true
    · intro hx
      omega

/-- After oring in the completeness mask, the masked value is non-zero. -/
theorem lor_mask_land_ne_zero (c : Nat) : (c ||| 65024) &&& 65024 ≠ 0 := by
  intro hz
  have h9 : ((c ||| 65024) &&& 65024).testBit 9 = false := by
    rw [hz]
    exact Nat.zero_testBit 9
  rw [Nat.testBit_land, Nat.testBit_lor] at h9
  have hm : Nat.testBit 65024 9 = true := by decide
  rw [hm] at h9
  simp at h9

/-- Shifting the accumulator of the mip loop shifts its result. -/
theorem mipLoop_acc (fuel : Nat) : ∀ d acc, mipLoop fuel d (acc + 1) = mipLoop fuel d acc + 1 := by
  induction fuel with
  | zero => intro d acc; rfl
  | succ n ih =>
      intro d acc
      simp only [mipLoop]
      by_cases hd : 1 < d
      · simp [hd, ih]
      · simp [hd]

/-- The mip loop result c for a positive start d satisfies
2 ^ (c - 1) ≤ d < 2 ^ c, i.e. c = 1 + floor(log2 d). -/
theorem mipLoop_bounds (fuel : Nat) : ∀ d, d ≤ fuel → 1 ≤ d →
    1 ≤ mipLoop fuel d 1 ∧ 2 ^ (mipLoop fuel d 1 - 1) ≤ d ∧ d < 2 ^ mipLoop fuel d 1 := by
  induction fuel with
  | zero => intro d hd h1; omega
  | succ n ih =>
      intro d hd h1
      by_cases h2 : 1 < d
      · have hrec : mipLoop (n + 1) d 1 = mipLoop n (d / 2) 1 + 1 := by
          simp only [mipLoop]
          rw [if_pos h2]
          exact mipLoop_acc n (d / 2) 1
        obtain ⟨ha, hb, hc⟩ := ih (d / 2) (by omega) (by omega)
        rw [hrec]
        obtain ⟨k, hk⟩ : ∃ k, mipLoop n (d / 2) 1 = k + 1 := ⟨mipLoop n (d / 2) 1 - 1, by omega⟩
        rw [hk] at hb hc
        rw [hk]
        have s1 : k + 1 - 1 = k := by omega
        have s2 : k + 1 + 1 - 1 = k + 1 := by omega
        rw [s1] at hb
        rw [s2]
        have p1 : 2 ^ (k + 1) = 2 * 2 ^ k := by
          rw [pow_succ]
          ring
        have p2 : 2 ^ (k + 1 + 1) = 2 * 2 ^ (k + 1) := by
          rw [pow_succ]
          ring
        refine ⟨by omega, by omega, by omega⟩
      · have hd1 : d = 1 := by omega
        subst hd1
        simp only [mipLoop]
        rw [if_neg h2]
        norm_num

/-- The expected mip count c of positive dimensions satisfies
2 ^ (c - 1) ≤ max width height < 2 ^ c. -/
theorem expectedMipCount_bounds (w h : Nat) (hpos : 1 ≤ max w h) :
    1 ≤ expectedMipCount w h ∧ 2 ^ (expectedMipCount w h - 1) ≤ max w h ∧
      max w h < 2 ^ expectedMipCount w h := by
  have hmax : (if h > w then h else w) = max w h := by
    rcases Nat.lt_or_ge w h with hlt | hle
    · rw [if_pos hlt, Nat.max_eq_right (by omega)]
    · rw [if_neg (by omega), Nat.max_eq_left (by omega)]
  unfold expectedMipCount
  rw [hmax]
  exact mipLoop_bounds (max w h) (max w h) le_rfl hpos

/-- On a power-of-two square dimension the expected mip count is the exponent
plus one. -/
theorem expectedMipCount_two_pow (k : Nat) : expectedMipCount (2 ^ k) (2 ^ k) = k + 1 := by
  have hpos : 1 ≤ max (2 ^ k) (2 ^ k) := by
    rw [max_self]
    exact Nat.one_le_two_pow
  obtain ⟨h1, h2, h3⟩ := expectedMipCount_bounds (2 ^ k) (2 ^ k) hpos
  rw [max_self] at h2 h3
  have hk1 : expectedMipCount (2 ^ k) (2 ^ k) - 1 ≤ k := by
    by_contra hcc
    push_neg at hcc
    have := Nat.pow_lt_pow_right (a := 2) (by omega) hcc
    omega
  have hk2 : k < expectedMipCount (2 ^ k) (2 ^ k) := by
    by_contra hcc
    push_neg at hcc
    have := Nat.pow_le_pow_right (n := 2) (by omega) hcc
    omega
  omega

/-- C1: for every run on six inputs that are valid (magic tag, at least 128
bytes, header Size 124, pixel format Size 32, non-zero dimensions), square and
mutually consistent in width, height and format tag, the output is
byte-for-byte the 4-byte magic tag, then face 0's 124-byte header with the
completeness flag set in Caps2 and every other field unchanged, then the six
payloads (bytes past each input's 128-byte header region) in input order; its
total size is the 128-byte header region plus the sum of the payload sizes. -/
theorem run_output_byte_layout (b0 b1 b2 b3 b4 b5 : Buffer)
    (g0 : goodFace b0 = true) (g1 : goodFace b1 = true) (g2 : goodFace b2 = true)
    (g3 : goodFace b3 = true) (g4 : goodFace b4 = true) (g5 : goodFace b5 = true)
    (k1 : consistentWith (readHeader b0) (readHeader b1) = true)
    (k2 : consistentWith (readHeader b0) (readHeader b2) = true)
    (k3 : consistentWith (readHeader b0) (readHeader b3) = true)
    (k4 : consistentWith (readHeader b0) (readHeader b4) = true)
    (k5 : consistentWith (readHeader b0) (readHeader b5) = true) :
    (run [b0, b1, b2, b3, b4, b5]).status = none ∧
    (run [b0, b1, b2, b3, b4, b5]).output =
      some (magicBytes ++ encodeHeader (setCompleteCubemapFlag (readHeader b0)) ++
        (b0.drop 128 ++ b1.drop 128 ++ b2.drop 128 ++ b3.drop 128 ++ b4.drop 128 ++
          b5.drop 128)) ∧
    (magicBytes ++ encodeHeader (setCompleteCubemapFlag (readHeader b0)) ++
        (b0.drop 128 ++ b1.drop 128 ++ b2.drop 128 ++ b3.drop 128 ++ b4.drop 128 ++
          b5.drop 128)).length =
      128 + ((b0.length - 128) + (b1.length - 128) + (b2.length - 128) + (b3.length - 128) +
        (b4.length - 128) + (b5.length - 128)) := by
  have hr := run_all_good b0 b1 b2 b3 b4 b5 g0 g1 g2 g3 g4 g5 k1 k2 k3 k4 k5
  have henc : (encodeHeader (setCompleteCubemapFlag (readHeader b0))).length = 124 :=
    encodeHeader_length _ rfl
  refine ⟨by rw [hr], by rw [hr], ?_⟩
  simp only [List.length_append, List.length_drop, henc, magicBytes, List.length_cons,
    List.length_nil]

/-- The C1 theorem instantiated on six copies of a concrete valid face. -/
theorem run_output_byte_layout_witness :
    (run [sampleFace, sampleFace, sampleFace, sampleFace, sampleFace, sampleFace]).status
      = none ∧
    (run [sampleFace, sampleFace, sampleFace, sampleFace, sampleFace, sampleFace]).output =
      some (magicBytes ++ encodeHeader (setCompleteCubemapFlag (readHeader sampleFace)) ++
        (sampleFace.drop 128 ++ sampleFace.drop 128 ++ sampleFace.drop 128 ++
          sampleFace.drop 128 ++ sampleFace.drop 128 ++ sampleFace.drop 128)) ∧
    (magicBytes ++ encodeHeader (setCompleteCubemapFlag (readHeader sampleFace)) ++
        (sampleFace.drop 128 ++ sampleFace.drop 128 ++ sampleFace.drop 128 ++
          sampleFace.drop 128 ++ sampleFace.drop 128 ++ sampleFace.drop 128)).length =
      128 + ((sampleFace.length - 128) + (sampleFace.length - 128) + (sampleFace.length - 128) +
        (sampleFace.length - 128) + (sampleFace.length - 128) + (sampleFace.length - 128)) :=
  run_output_byte_layout sampleFace sampleFace sampleFace sampleFace sampleFace sampleFace
    (by decide) (by decide) (by decide) (by decide) (by decide) (by decide)
    (by decide) (by decide) (by decide) (by decide) (by decide)

/-- C2: the derived cubemap-completeness predicate holds iff Caps2 meets the
bit pattern 0xFE00, i.e. iff one of bits 9 through 15 of Caps2 is set. -/
theorem iscompleteCubemap_iff_mask (h : DDSFileHeader) :
    (h.IscompleteCubemap = true ↔ h.Caps2 &&& 0xFE00 ≠ 0) ∧
    (h.IscompleteCubemap = true ↔ ∃ i, 9 ≤ i ∧ i ≤ 15 ∧ h.Caps2.testBit i = true) := by
  have hiff : h.IscompleteCubemap = true ↔ h.Caps2 &&& 65024 ≠ 0 := by
    simp only [DDSFileHeader.IscompleteCubemap, DDSCompleteCubemap]
    exact bne_iff_ne
  refine ⟨hiff, ?_⟩
  rw [hiff]
  constructor
  · intro hne
    obtain ⟨i, hbit⟩ := Nat.ne_zero_implies_bit_true hne
    rw [Nat.testBit_land, Bool.and_eq_true] at hbit
    obtain ⟨hc, hm⟩ := hbit
    obtain ⟨h9, h15⟩ := (testBit_mask i).mp hm
    exact ⟨i, h9, h15, hc⟩
  · rintro ⟨i, h9, h15, hc⟩
    intro hz
    have hfb : (h.Caps2 &&& 65024).testBit i = false := by
      rw [hz]
      exact Nat.zero_testBit i
    rw [Nat.testBit_land, hc, (testBit_mask i).mpr ⟨h9, h15⟩] at hfb
    simp at hfb

/-- The C2 theorem instantiated on a concrete header with bit 9 of Caps2 set. -/
theorem iscompleteCubemap_iff_mask_witness :
    (DDSFileHeader.IscompleteCubemap { sampleHeader with Caps2 := 512 } = true ↔
      ({ sampleHeader with Caps2 := 512 } : DDSFileHeader).Caps2 &&& 0xFE00 ≠ 0) ∧
    (DDSFileHeader.IscompleteCubemap { sampleHeader with Caps2 := 512 } = true ↔
      ∃ i, 9 ≤ i ∧ i ≤ 15 ∧
        ({ sampleHeader with Caps2 := 512 } : DDSFileHeader).Caps2.testBit i = true) :=
  iscompleteCubemap_iff_mask { sampleHeader with Caps2 := 512 }

/-- C3: on a successful run the output file decodes again, and the decoded
header satisfies the completeness predicate even though no input did. -/
theorem run_output_decodes_complete (b0 b1 b2 b3 b4 b5 : Buffer)
    (hbytes : ∀ x ∈ b0, x < 256)
    (g0 : goodFace b0 = true) (g1 : goodFace b1 = true) (g2 : goodFace b2 = true)
    (g3 : goodFace b3 = true) (g4 : goodFace b4 = true) (g5 : goodFace b5 = true)
    (k1 : consistentWith (readHeader b0) (readHeader b1) = true)
    (k2 : consistentWith (readHeader b0) (readHeader b2) = true)
    (k3 : consistentWith (readHeader b0) (readHeader b3) = true)
    (k4 : consistentWith (readHeader b0) (readHeader b4) = true)
    (k5 : consistentWith (readHeader b0) (readHeader b5) = true)
    (z0 : (readHeader b0).IscompleteCubemap = false)
    (z1 : (readHeader b1).IscompleteCubemap = false)
    (z2 : (readHeader b2).IscompleteCubemap = false)
    (z3 : (readHeader b3).IscompleteCubemap = false)
    (z4 : (readHeader b4).IscompleteCubemap = false)
    (z5 : (readHeader b5).IscompleteCubemap = false) :
    (run [b0, b1, b2, b3, b4, b5]).output =
      some (magicBytes ++ encodeHeader (setCompleteCubemapFlag (readHeader b0)) ++
        (b0.drop 128 ++ b1.drop 128 ++ b2.drop 128 ++ b3.drop 128 ++ b4.drop 128 ++
          b5.drop 128)) ∧
    decodeFace (magicBytes ++ encodeHeader (setCompleteCubemapFlag (readHeader b0)) ++
        (b0.drop 128 ++ b1.drop 128 ++ b2.drop 128 ++ b3.drop 128 ++ b4.drop 128 ++
          b5.drop 128)) =
      DecodeResult.ok (readHeader (magicBytes ++
        encodeHeader (setCompleteCubemapFlag (readHeader b0)) ++
        (b0.drop 128 ++ b1.drop 128 ++ b2.drop 128 ++ b3.drop 128 ++ b4.drop 128 ++
          b5.drop 128))) ∧
    (readHeader (magicBytes ++ encodeHeader (setCompleteCubemapFlag (readHeader b0)) ++
        (b0.drop 128 ++ b1.drop 128 ++ b2.drop 128 ++ b3.drop 128 ++ b4.drop 128 ++
          b5.drop 128))).IscompleteCubemap = true := by
  have henc : (encodeHeader (setCompleteCubemapFlag (readHeader b0))).length = 124 :=
    encodeHeader_length _ rfl
  refine ⟨?_, ?_, ?_⟩
  · rw [run_all_good b0 b1 b2 b3 b4 b5 g0 g1 g2 g3 g4 g5 k1 k2 k3 k4 k5]
  · apply decodeFace_eq_ok
    · simp [magicBytes, magicCheck, List.cons_append, byteGet]
    · simp only [List.length_append, henc, magicBytes, List.length_cons, List.length_nil]
      omega
  · have hc2lt : (setCompleteCubemapFlag (readHeader b0)).Caps2 < 4294967296 := by
      show (readHeader b0).Caps2 ||| DDSCompleteCubemap < 4294967296
      apply lor_lt_32
      · exact le32_lt b0 hbytes 112
      · norm_num [DDSCompleteCubemap]
    have hcaps := readHeader_mkFace_Caps2 (setCompleteCubemapFlag (readHeader b0)) rfl hc2lt
      (b0.drop 128 ++ b1.drop 128 ++ b2.drop 128 ++ b3.drop 128 ++ b4.drop 128 ++ b5.drop 128)
    have hne : (readHeader (magicBytes ++
        encodeHeader (setCompleteCubemapFlag (readHeader b0)) ++
        (b0.drop 128 ++ b1.drop 128 ++ b2.drop 128 ++ b3.drop 128 ++ b4.drop 128 ++
          b5.drop 128))).Caps2 &&& DDSCompleteCubemap ≠ 0 := by
      rw [hcaps]
      exact lor_mask_land_ne_zero ((readHeader b0).Caps2)
    exact bne_iff_ne.mpr hne

set_option maxHeartbeats 2000000 in
/-- The C3 theorem instantiated on six copies of a concrete valid face whose
Caps2 is zero. -/
theorem run_output_decodes_complete_witness :
    (run [sampleFace, sampleFace, sampleFace, sampleFace, sampleFace, sampleFace]).output =
      some (magicBytes ++ encodeHeader (setCompleteCubemapFlag (readHeader sampleFace)) ++
        (sampleFace.drop 128 ++ sampleFace.drop 128 ++ sampleFace.drop 128 ++
          sampleFace.drop 128 ++ sampleFace.drop 128 ++ sampleFace.drop 128)) ∧
    decodeFace (magicBytes ++ encodeHeader (setCompleteCubemapFlag (readHeader sampleFace)) ++
        (sampleFace.drop 128 ++ sampleFace.drop 128 ++ sampleFace.drop 128 ++
          sampleFace.drop 128 ++ sampleFace.drop 128 ++ sampleFace.drop 128)) =
      DecodeResult.ok (readHeader (magicBytes ++
        encodeHeader (setCompleteCubemapFlag (readHeader sampleFace)) ++
        (sampleFace.drop 128 ++ sampleFace.drop 128 ++ sampleFace.drop 128 ++
          sampleFace.drop 128 ++ sampleFace.drop 128 ++ sampleFace.drop 128))) ∧
    (readHeader (magicBytes ++ encodeHeader (setCompleteCubemapFlag (readHeader sampleFace)) ++
        (sampleFace.drop 128 ++ sampleFace.drop 128 ++ sampleFace.drop 128 ++
          sampleFace.drop 128 ++ sampleFace.drop 128 ++
          sampleFace.drop 128))).IscompleteCubemap = true :=
  run_output_decodes_complete sampleFace sampleFace sampleFace sampleFace sampleFace sampleFace
    (by decide) (by decide) (by decide) (by decide) (by decide) (by decide) (by decide)
    (by decide) (by decide) (by decide) (by decide) (by decide) (by decide) (by decide)
    (by decide) (by decide) (by decide) (by decide)

/-- C4: the expected mip count c is the repeated-halving count of the larger
dimension: for positive dimensions it is the unique c with
2 ^ (c - 1) ≤ max width height < 2 ^ c, i.e. 1 + floor(log2); on 2 ^ k it is
k + 1; and expectedMipCount 256 256 = 9 and expectedMipCount 1 1 = 1. -/
theorem expectedMipCount_halving :
    (∀ w h, 1 ≤ max w h →
        1 ≤ expectedMipCount w h ∧ 2 ^ (expectedMipCount w h - 1) ≤ max w h ∧
          max w h < 2 ^ expectedMipCount w h) ∧
    (∀ k, expectedMipCount (2 ^ k) (2 ^ k) = k + 1) ∧
    expectedMipCount 256 256 = 9 ∧ expectedMipCount 1 1 = 1 :=
  ⟨expectedMipCount_bounds, expectedMipCount_two_pow, by decide, by decide⟩

/-- The C4 theorem instantiated on a concrete non-power-of-two size. -/
theorem expectedMipCount_halving_witness :
    (1 ≤ expectedMipCount 640 480 ∧ 2 ^ (expectedMipCount 640 480 - 1) ≤ max 640 480 ∧
      max 640 480 < 2 ^ expectedMipCount 640 480) ∧
    expectedMipCount (2 ^ 4) (2 ^ 4) = 4 + 1 :=
  ⟨expectedMipCount_halving.1 640 480 (by norm_num), expectedMipCount_halving.2.1 4⟩

/-- C5: a decoded header with Size not 124, pixel format Size not 32, or a
zero dimension fails the run with InvalidHeaderError for that face, and a
header passing all four checks passes validation. -/
theorem invalidHeader_rejection :
    (∀ h : DDSFileHeader, validateHeader h = true ↔
        h.Size = 124 ∧ h.PixelFormatDef.Size = 32 ∧ h.Width ≠ 0 ∧ h.Height ≠ 0) ∧
    (∀ b0 rest h, decodeFace b0 = DecodeResult.ok h → validateHeader h = false →
        run (b0 :: rest) =
          { status := some (RunError.InvalidHeaderError 0), output := none,
            warnings := [] }) ∧
    (∀ first buf rest side out warns h, decodeFace buf = DecodeResult.ok h →
        validateHeader h = false →
        processTail first (buf :: rest) side out warns =
          { status := some (RunError.InvalidHeaderError side), output := some out,
            warnings := warns }) := by
  refine ⟨?_, run_cons_invalid, processTail_cons_invalid⟩
  intro h
  simp [validateHeader, and_assoc]
  tauto

/-- The C5 theorem instantiated on a concrete face declaring header Size 123. -/
theorem invalidHeader_rejection_witness :
    validateHeader (readHeader badSizeFace) = false ∧
    run [badSizeFace, [], [], [], [], []] =
      { status := some (RunError.InvalidHeaderError 0), output := none, warnings := [] } :=
  ⟨by decide, invalidHeader_rejection.2.1 badSizeFace [[], [], [], [], []]
    (readHeader badSizeFace) (by decide) (by decide)⟩

/-- C6 counterexample: an empty face 0 is shorter than 128 bytes, so the claim
demands NotDdsError, but the run instead reaches the out-of-bounds branch of
the magic comparison, which is evaluated before any size check. -/
theorem short_input_oob_counterexample :
    run [[], [], [], [], [], []] =
      { status := some (RunError.OobAccess 0), output := none, warnings := [] } ∧
    (run [[], [], [], [], [], []]).status ≠ some (RunError.NotDdsError 0) := by
  exact ⟨by decide, by decide⟩

/-- C6 (amended): a face input of at least 4 bytes that lacks the magic tag or
is shorter than 128 bytes fails the run with NotDdsError for that face; face 0
failures leave the output unopened and later failures leave exactly the bytes
already written; inputs shorter than 4 bytes instead reach the out-of-bounds
branch of the magic comparison. -/
theorem notDds_rejection :
    (∀ b0 rest, 4 ≤ b0.length → (magicCheck b0 ≠ some true ∨ b0.length < 128) →
        run (b0 :: rest) =
          { status := some (RunError.NotDdsError 0), output := none,
            warnings := [] }) ∧
    (∀ first buf rest side out warns, 4 ≤ buf.length →
        (magicCheck buf ≠ some true ∨ buf.length < 128) →
        processTail first (buf :: rest) side out warns =
          { status := some (RunError.NotDdsError side), output := some out,
            warnings := warns }) ∧
    (∀ buf : Buffer, buf.length < 4 → decodeFace buf = DecodeResult.oob) := by
  refine ⟨?_, ?_, fun buf h => decodeFace_oob buf h⟩
  · intro b0 rest h4 hbad
    exact run_cons_notDds b0 rest (decodeFace_eq_notDds b0 h4 hbad)
  · intro first buf rest side out warns h4 hbad
    exact processTail_cons_notDds first buf rest side out warns (decodeFace_eq_notDds buf h4 hbad)

/-- The amended C6 theorem instantiated on a concrete wrong-magic face 0. -/
theorem notDds_rejection_witness :
    run [[0, 0, 0, 0], sampleFace, sampleFace, sampleFace, sampleFace, sampleFace] =
      { status := some (RunError.NotDdsError 0), output := none, warnings := [] } :=
  notDds_rejection.1 [0, 0, 0, 0] [sampleFace, sampleFace, sampleFace, sampleFace, sampleFace]
    (by decide) (Or.inl (by decide))

/-- C7: a validated face with Width not equal to Height fails the run with
NotCubemapCompatibleError after the mip comparison (the warning is recorded),
before the face 0 output write (the output stays unopened on face 0) and
before the consistency step (the tail outcome does not depend on the face 0
header). -/
theorem nonsquare_rejection :
    (∀ b0 rest h, decodeFace b0 = DecodeResult.ok h → validateHeader h = true →
        h.Width ≠ h.Height →
        run (b0 :: rest) =
          { status := some (RunError.NotCubemapCompatibleError 0),
            output := none, warnings := mipWarn 0 h }) ∧
    (∀ first buf rest side out warns h, decodeFace buf = DecodeResult.ok h →
        validateHeader h = true → h.Width ≠ h.Height →
        processTail first (buf :: rest) side out warns =
          { status := some (RunError.NotCubemapCompatibleError side), output := some out,
            warnings := warns ++ mipWarn side h }) :=
  ⟨run_cons_nonsquare, processTail_cons_nonsquare⟩

/-- The C7 theorem instantiated on a concrete 128x256 face 0. -/
theorem nonsquare_rejection_witness :
    run [widthOnlyFace, sampleFace, sampleFace, sampleFace, sampleFace, sampleFace] =
      { status := some (RunError.NotCubemapCompatibleError 0), output := none,
        warnings := mipWarn 0 (readHeader widthOnlyFace) } :=
  nonsquare_rejection.1 widthOnlyFace [sampleFace, sampleFace, sampleFace, sampleFace, sampleFace]
    (readHeader widthOnlyFace) (by decide) (by decide) (by decide)

/-- C8 counterexample: a face differing from face 0 only in width is rejected
as non-square, not with the inconsistency error; and a width/height mismatch
and a pixel-format mismatch produce bit-identical outcomes, so the error does
not identify the offending field. -/
theorem inconsistent_faces_counterexample :
    (run [sampleFace, widthOnlyFace, [], [], [], []]).status =
      some (RunError.NotCubemapCompatibleError 1) ∧
    run [sampleFace, smallFace, [], [], [], []] = run [sampleFace, fourccFace, [], [], [], []] ∧
    (run [sampleFace, smallFace, [], [], [], []]).status =
      some (RunError.InconsistentFacesError 1) ∧
    smallFace ≠ fourccFace :=
  ⟨by decide, by decide, by decide, by decide⟩

/-- C8 (amended): a validated square face past index 0 that differs from face 0
in width, height or pixel format tag fails the run with InconsistentFacesError
identifying the offending face (the field is not identified, and a width
difference with unchanged height is rejected earlier as non-square); a face
agreeing on all three passes the cross-check, other fields being ignored. -/
theorem inconsistent_faces_rejection :
    (∀ first buf rest side out warns h, decodeFace buf = DecodeResult.ok h →
        validateHeader h = true → h.Width = h.Height →
        (h.Width ≠ first.Width ∨ h.Height ≠ first.Height ∨
          h.PixelFormatDef.FourCC ≠ first.PixelFormatDef.FourCC) →
        processTail first (buf :: rest) side out warns =
          { status := some (RunError.InconsistentFacesError side), output := some out,
            warnings := warns ++ mipWarn side h }) ∧
    (∀ first buf rest side out warns h, decodeFace buf = DecodeResult.ok h →
        validateHeader h = true → h.Width = h.Height → h.Width = first.Width →
        h.Height = first.Height → h.PixelFormatDef.FourCC = first.PixelFormatDef.FourCC →
        processTail first (buf :: rest) side out warns =
          processTail first rest (side + 1) (out ++ buf.drop 128) (warns ++ mipWarn side h)) :=
  ⟨processTail_cons_inconsistent, processTail_cons_pass⟩

/-- The amended C8 theorem instantiated on a concrete 128x128 face against a
256x256 face 0. -/
theorem inconsistent_faces_rejection_witness :
    processTail (readHeader sampleFace) [smallFace] 1 [] [] =
      { status := some (RunError.InconsistentFacesError 1), output := some [],
        warnings := [] ++ mipWarn 1 (readHeader smallFace) } :=
  inconsistent_faces_rejection.1 (readHeader sampleFace) smallFace [] 1 [] []
    (readHeader smallFace) (by decide) (by decide) (by decide) (Or.inl (by decide))

/-- C9: a declared mip count differing from the expected one is recorded as a
warning, and processing continues exactly as it would otherwise: neither the
face 0 step nor a later face's step can fail because of the mip count. -/
theorem mip_mismatch_nonfatal :
    (∀ side h, expectedMipCount h.Width h.Height ≠ h.MipMapCount → mipWarn side h = [side]) ∧
    (∀ b0 rest h, decodeFace b0 = DecodeResult.ok h → validateHeader h = true →
        h.Width = h.Height →
        run (b0 :: rest) = processTail h rest 1
          (magicBytes ++ encodeHeader (setCompleteCubemapFlag h) ++ b0.drop 128)
          (mipWarn 0 h)) ∧
    (∀ first buf rest side out warns h, decodeFace buf = DecodeResult.ok h →
        validateHeader h = true → h.Width = h.Height → h.Width = first.Width →
        h.Height = first.Height → h.PixelFormatDef.FourCC = first.PixelFormatDef.FourCC →
        processTail first (buf :: rest) side out warns =
          processTail first rest (side + 1) (out ++ buf.drop 128) (warns ++ mipWarn side h)) := by
  refine ⟨?_, run_cons_pass, processTail_cons_pass⟩
  intro side h hne
  have hb : (expectedMipCount h.Width h.Height != h.MipMapCount) = true := bne_iff_ne.mpr hne
  simp [mipWarn, hb]

/-- The C9 theorem instantiated on a concrete 256x256 face declaring 5 mips,
together with the fact that a run over six such faces still succeeds. -/
theorem mip_mismatch_nonfatal_witness :
    mipWarn 1 (readHeader mip5Face) = [1] ∧
    run [mip5Face, mip5Face, mip5Face, mip5Face, mip5Face, mip5Face] =
      processTail (readHeader mip5Face) [mip5Face, mip5Face, mip5Face, mip5Face, mip5Face] 1
        (magicBytes ++ encodeHeader (setCompleteCubemapFlag (readHeader mip5Face)) ++
          mip5Face.drop 128)
        (mipWarn 0 (readHeader mip5Face)) ∧
    (run [mip5Face, mip5Face, mip5Face, mip5Face, mip5Face, mip5Face]).status = none ∧
    (run [mip5Face, mip5Face, mip5Face, mip5Face, mip5Face, mip5Face]).warnings =
      [0, 1, 2, 3, 4, 5] :=
  ⟨mip_mismatch_nonfatal.1 1 (readHeader mip5Face) (by decide),
   mip_mismatch_nonfatal.2.1 mip5Face [mip5Face, mip5Face, mip5Face, mip5Face, mip5Face]
     (readHeader mip5Face) (by decide) (by decide) (by decide),
   by decide, by decide⟩

/-- C10: the magic comparison is evaluated before the size check: on a buffer
of at least 4 bytes all of its accesses are in bounds, while on a buffer
shorter than 4 bytes it goes out of bounds, and decoding reaches the
out-of-bounds branch even though such a buffer is also shorter than 128
bytes. -/
theorem magic_comparison_bounds :
    (∀ buf : Buffer, 4 ≤ buf.length → (magicCheck buf).isSome = true) ∧
    (∀ buf : Buffer, buf.length < 4 →
        magicCheck buf = none ∧ decodeFace buf = DecodeResult.oob ∧ buf.length < 128) :=
  ⟨magicCheck_isSome, fun buf h =>
    ⟨magicCheck_of_short buf h, decodeFace_oob buf h, by omega⟩⟩

/-- The C10 theorem instantiated on concrete 4-byte and 1-byte buffers. -/
theorem magic_comparison_bounds_witness :
    (magicCheck [68, 68, 83, 32]).isSome = true ∧ magicCheck [68] = none ∧
      decodeFace [68] = DecodeResult.oob :=
  ⟨magic_comparison_bounds.1 [68, 68, 83, 32] (by decide),
   (magic_comparison_bounds.2 [68] (by decide)).1,
   (magic_comparison_bounds.2 [68] (by decide)).2.1⟩

end DdsCubemap
